import Mathlib

/-!
Verification of the format-specifier checking and repair logic of
`update-translations.py`.  Strings are modelled as `List Char`; Python's
`set` of numeric specifiers becomes a `Finset Char`; the uncaught
`IndexError` / failed `assert` outcomes are modelled explicitly.
-/

/-- Findings appended to the `errors` list while checking one translation. -/
inductive Finding where
  | parseError
  | mismatch
  | addr
deriving DecidableEq

/-- Outcome of `check_format_specifiers`: an uncaught IndexError while
parsing the source (the `try` only guards the translation), a failed
`assert`, or a boolean result together with the findings appended. -/
inductive CheckOutcome where
  | sourceParseCrash
  | assertFail
  | result (valid : Bool) (errors : List Finding)
deriving DecidableEq

/-- A `<translation>` XML node: its text and its `type` attribute. -/
structure TNode where
  text : Option (List Char)
  ty : Option (List Char)
deriving DecidableEq

/-- Embedding of `find_format_specifiers`: scan left to right, record the
character after each `%`, resume two positions later; a trailing `%`
raises IndexError (`none`). -/
def find_format_specifiers : List Char → Option (List Char)
  | [] => some []
  | c :: rest =>
    if c = '%' then
      match rest with
      | [] => none
      | d :: rest2 => (find_format_specifiers rest2).map (fun l => d :: l)
    else find_format_specifiers rest

/-- Membership test of the Python literal set of digits 1..9. -/
def isQtDigit (c : Char) : Bool :=
  c == '1' || c == '2' || c == '3' || c == '4' || c == '5' ||
  c == '6' || c == '7' || c == '8' || c == '9'

/-- Embedding of `split_format_specifiers`: digits 1-9 are collected into
the numeric set, the rest into the ordered `other` list; if any numeric
specifier is present the `other` list is discarded. -/
def split_format_specifiers (specifiers : List Char) : Finset Char × List Char :=
  let numeric := specifiers.filter (fun c => isQtDigit c)
  let other := specifiers.filter (fun c => !(isQtDigit c))
  if numeric = [] then (numeric.toFinset, other) else (numeric.toFinset, [])

/-- Embedding of `check_format_specifiers` (source profile computed outside
the `try`; `assert(not(source_f[0] and source_f[1]))`; numerus exemption
for a `(set(), n)` source profile and a `%`-free translation). -/
def check_format_specifiers (source translation : List Char) (numerus : Bool) : CheckOutcome :=
  match find_format_specifiers source with
  | none => CheckOutcome.sourceParseCrash
  | some ssp =>
    let source_f := split_format_specifiers ssp
    if source_f.1 ≠ ∅ ∧ source_f.2 ≠ [] then CheckOutcome.assertFail
    else
      match find_format_specifiers translation with
      | none => CheckOutcome.result false [Finding.parseError]
      | some tsp =>
        let translation_f := split_format_specifiers tsp
        if source_f ≠ translation_f then
          if numerus = true ∧ source_f = (∅, ['n']) ∧ translation_f = (∅, ([] : List Char))
             ∧ translation.contains '%' = false
          then CheckOutcome.result true []
          else CheckOutcome.result false [Finding.mismatch]
        else CheckOutcome.result true []

/-- Fuel-indexed model of Python `str.replace`: leftmost, non-overlapping,
left to right.  The fuel is an upper bound on the number of scanning steps;
`pyReplace` supplies the string length, which always suffices. -/
def pyReplaceFuel (pat rep : List Char) : Nat → List Char → List Char
  | _, [] => []
  | 0, s => s
  | n + 1, c :: rest =>
    if pat ≠ [] ∧ pat.isPrefixOf (c :: rest)
    then rep ++ pyReplaceFuel pat rep n (rest.drop (pat.length - 1))
    else c :: pyReplaceFuel pat rep n rest

/-- Python `s.replace(pat, rep)` for the non-empty patterns used here. -/
def pyReplace (s pat rep : List Char) : List Char :=
  pyReplaceFuel pat rep s.length s

/-- Embedding of `fix_string`: the chained `str.replace` table, applied in
the source order. -/
def fix_string (s : List Char) : List Char :=
  pyReplace (pyReplace (pyReplace (pyReplace (pyReplace (pyReplace (pyReplace (pyReplace
    (pyReplace (pyReplace (pyReplace s
      ['%', ' ', '1'] ['%', '1'])
      ['1', '%'] ['%', '1'])
      ['$', '1'] ['%', '1'])
      ['2', '%'] ['%', '2'])
      ['%', ' ', 's'] ['%', 's'])
      ['s', '%'] ['%', 's'])
      ['$', 's'] ['%', 's'])
      ['n', '%'] ['%', 'n'])
      ['$', 'n'] ['%', 'n'])
      ['%', ' ', 'n'] ['%', 'n'])
      ['%', ' ', 'd'] ['%', 'd']

/-- Substring test: Python `s.find(pat) >= 0` / `pat in s`. -/
def containsSub (pat : List Char) : List Char → Bool
  | [] => pat.isEmpty
  | c :: rest => pat.isPrefixOf (c :: rest) || containsSub pat rest

/-- Length of the leading run of `[a-zA-Z0-9]` characters. -/
def leadingAlnum : List Char → Nat
  | [] => 0
  | c :: rest => if c.isAlpha || c.isDigit then leadingAlnum rest + 1 else 0

/-- Match of the regex `([13]|bc1)[a-zA-Z0-9]{30,}` anchored at the head of
the list. -/
def addr_match_at (l : List Char) : Bool :=
  match l with
  | 'b' :: 'c' :: '1' :: rest => decide (30 ≤ leadingAlnum rest)
  | '1' :: rest => decide (30 ≤ leadingAlnum rest)
  | '3' :: rest => decide (30 ≤ leadingAlnum rest)
  | _ => false

/-- Embedding of `contains_bitcoin_addr`: unanchored regex search, i.e. a
match starting at some position. -/
def contains_bitcoin_addr : List Char → Bool
  | [] => false
  | c :: rest => addr_match_at (c :: rest) || contains_bitcoin_addr rest

/-- The per-translation validity computation
`valid = check_format_specifiers(...) and not contains_bitcoin_addr(...)`
with Python short-circuiting, returning the validity flag and the findings
accumulated in `errors`; `none` models a crashed run (uncaught IndexError
on the source, or a failed assert). -/
def message_valid (source t : List Char) (numerus : Bool) : Option (Bool × List Finding) :=
  match check_format_specifiers source t numerus with
  | CheckOutcome.sourceParseCrash => none
  | CheckOutcome.assertFail => none
  | CheckOutcome.result v errs =>
    if v = true then
      if contains_bitcoin_addr t = true then some (false, errs ++ [Finding.addr])
      else some (true, errs)
    else some (false, errs)

/-- The `type` attribute value marking a translation as not shipped. -/
def unfinishedMarker : List Char := ['u', 'n', 'f', 'i', 'n', 'i', 's', 'h', 'e', 'd']

/-- Embedding of `clear_translation`: `t.clear()` drops text and attributes,
then `type` is set to `unfinished`. -/
def clear_translation (_t : TNode) : TNode :=
  { text := none, ty := some unfinishedMarker }

/-- The conditional space insertion of the first repair pass: when the fixed
string does not start with `%` and no `%` in it is directly preceded by a
space, an opening parenthesis, a single quote or a double quote, every `%`
is replaced by a space followed by `%`. -/
def insert_spaces (t1 : List Char) : List Char :=
  if t1.head? ≠ some '%' ∧ containsSub [' ', '%'] t1 = false ∧ containsSub ['(', '%'] t1 = false
     ∧ containsSub ['\'', '%'] t1 = false ∧ containsSub ['"', '%'] t1 = false
  then pyReplace t1 ['%'] [' ', '%'] else t1

/-- Embedding of the repair chain applied to an invalid translation whose
node text is `t` (lines 193-239): the `fix_string` pass with conditional
space insertion, the `%`-to-`&` swap pass, the `%1`-to-`%n` swap pass, and
finally clearing the node.  The first component of the result is the node as
left by the code, the second the contribution to `have_errors`; `none`
models an uncaught IndexError (e.g. indexing `text[0]` of an empty string or
re-parsing a string with a trailing `%`). -/
def attempt_fix (source : List Char) (source_f : Finset Char × List Char)
    (ty0 : Option (List Char)) (t : List Char) : Option (TNode × Bool) :=
  let t1 := fix_string t
  match find_format_specifiers t1 with
  | none => none
  | some sp1 =>
    if split_format_specifiers sp1 = source_f then
      match t1 with
      | [] => none
      | _ :: _ => some ({ text := some (insert_spaces t1), ty := ty0 }, false)
    else if t1.contains '%' = true ∧ source.contains '&' = true then
      let t2 := pyReplace t1 ['%'] ['&']
      match find_format_specifiers t2 with
      | none => none
      | some sp2 =>
        if split_format_specifiers sp2 = source_f
        then some ({ text := some t2, ty := ty0 }, false)
        else some (clear_translation { text := some t2, ty := ty0 }, true)
    else if containsSub ['%', '1'] t1 = true ∧ containsSub ['%', 'n'] source = true then
      let t3 := pyReplace t1 ['%', '1'] ['%', 'n']
      match find_format_specifiers t3 with
      | none => none
      | some sp3 =>
        if split_format_specifiers sp3 = source_f
        then some ({ text := some t3, ty := ty0 }, false)
        else some (clear_translation { text := some t3, ty := ty0 }, true)
    else some (clear_translation { text := some t1, ty := ty0 }, true)

/-- Minimum number of messages for a translation file to be kept. -/
def MIN_NUM_MESSAGES : Nat := 10

/-- Removal of every message whose translation node carries
`type="unfinished"` from one `<context>`. -/
def prune_context (ctx : List TNode) : List TNode :=
  ctx.filter (fun n => n.ty != some unfinishedMarker)

/-- Document-level pruning (lines 241-257): drop unfinished messages from
every context, then discard the whole document when fewer than
`MIN_NUM_MESSAGES` messages survive. -/
def prune_document (doc : List (List TNode)) : Option (List (List TNode)) :=
  let pruned := doc.map prune_context
  if (pruned.map List.length).sum < MIN_NUM_MESSAGES then none else some pruned

/-- Unfolding: the empty string has no specifiers. -/
theorem find_nil : find_format_specifiers [] = some [] := rfl

/-- Unfolding: a lone trailing percent raises. -/
theorem find_percent_nil : find_format_specifiers ['%'] = none := rfl

/-- Unfolding: a percent takes the next character as specifier and scanning
resumes after it. -/
theorem find_percent_cons (d : Char) (rest2 : List Char) :
    find_format_specifiers ('%' :: d :: rest2)
      = (find_format_specifiers rest2).map (fun l => d :: l) := rfl

/-- Unfolding: a non-percent character is skipped. -/
theorem find_other_cons (c : Char) (rest : List Char) (hc : ¬(c = '%')) :
    find_format_specifiers (c :: rest) = find_format_specifiers rest := by
  rw [find_format_specifiers.eq_def]
  simp [hc]

/-- Unfolding: replacing in the empty string gives the empty string. -/
theorem pyReplaceFuel_nil (pat rep : List Char) (n : Nat) : pyReplaceFuel pat rep n [] = [] := by
  cases n <;> rfl

/-- Unfolding: one scanning step of the replacement. -/
theorem pyReplaceFuel_succ (pat rep : List Char) (n : Nat) (c : Char) (rest : List Char) :
    pyReplaceFuel pat rep (n + 1) (c :: rest)
      = if pat ≠ [] ∧ pat.isPrefixOf (c :: rest)
        then rep ++ pyReplaceFuel pat rep n (rest.drop (pat.length - 1))
        else c :: pyReplaceFuel pat rep n rest := rfl

/-- Unfolding of the substring test on a cons cell. -/
theorem containsSub_cons (pat : List Char) (c : Char) (rest : List Char) :
    containsSub pat (c :: rest) = (pat.isPrefixOf (c :: rest) || containsSub pat rest) := rfl

/-- The numeric component of a profile is always the digit filter of the
token list, in both branches of the classification. -/
theorem split_fst (sp : List Char) :
    (split_format_specifiers sp).1 = (sp.filter (fun c => isQtDigit c)).toFinset := by
  simp only [split_format_specifiers]
  split <;> rfl

/-- The other component is the non-digit filter when no digit occurs, and
empty otherwise. -/
theorem split_snd (sp : List Char) :
    (split_format_specifiers sp).2
      = if sp.filter (fun c => isQtDigit c) = [] then sp.filter (fun c => !(isQtDigit c))
        else [] := by
  simp only [split_format_specifiers]
  split <;> rfl

/-- The digit filter is empty exactly when no token is a digit 1-9. -/
theorem filter_isQtDigit_eq_nil (sp : List Char) :
    sp.filter (fun c => isQtDigit c) = [] ↔ sp.any isQtDigit = false := by
  simp [List.filter_eq_nil_iff, List.any_eq_false]

/-- A string with no percent character parses to the empty specifier list. -/
theorem find_no_percent (t : List Char) (h : t.contains '%' = false) :
    find_format_specifiers t = some [] := by
  induction t with
  | nil => rfl
  | cons c rest ih =>
    rw [List.contains_cons] at h
    have hc : ('%' == c) = false := by
      cases hb : ('%' == c)
      · rfl
      · rw [hb] at h; simp at h
    have hrest : rest.contains '%' = false := by
      cases hb : rest.contains '%'
      · rfl
      · rw [hb] at h; simp at h
    have hc' : ¬(c = '%') := by
      intro he
      subst he
      simp at hc
    rw [find_other_cons c rest hc']
    exact ih hrest

/-- Disjunction elimination on Bool or. -/
theorem bool_or_false (a b : Bool) (h : (a || b) = false) : a = false ∧ b = false := by
  revert h
  cases a <;> cases b <;> decide

/-- Inserting a space before every percent (the first repair pass' optional
step) does not change the parsed specifier list, provided the string
contains no two adjacent percent characters. -/
theorem find_spaces_fuel :
    ∀ (n : Nat) (s sp : List Char), s.length ≤ n →
      containsSub ['%', '%'] s = false →
      find_format_specifiers s = some sp →
      find_format_specifiers (pyReplaceFuel ['%'] [' ', '%'] n s) = some sp := by
  intro n
  induction n using Nat.strong_induction_on with
  | _ n ih =>
  intro s sp hlen hdd hf
  rcases s with _ | ⟨c, rest⟩
  · rw [pyReplaceFuel_nil]
    exact hf
  · rcases n with _ | m
    · simp at hlen
    · by_cases hc : c = '%'
      · subst hc
        rcases rest with _ | ⟨d, rest2⟩
        · rw [find_percent_nil] at hf
          cases hf
        · have hd : ¬(d = '%') := by
            intro he
            subst he
            rw [containsSub_cons] at hdd
            simp [List.isPrefixOf] at hdd
          have hdd2 : containsSub ['%', '%'] rest2 = false := by
            rw [containsSub_cons] at hdd
            have h1 := (bool_or_false _ _ hdd).2
            rw [containsSub_cons] at h1
            exact (bool_or_false _ _ h1).2
          obtain ⟨sp2, hf2, hsp⟩ : ∃ sp2, find_format_specifiers rest2 = some sp2 ∧ sp = d :: sp2 := by
            rw [find_percent_cons] at hf
            cases h2 : find_format_specifiers rest2 with
            | none => rw [h2] at hf; cases hf
            | some l =>
              rw [h2] at hf
              refine ⟨l, rfl, ?_⟩
              injection hf with h3
              exact h3.symm
          subst hsp
          have hlen2 : rest2.length + 1 ≤ m := by
            simp at hlen
            omega
          rcases m with _ | k
          · omega
          · rw [pyReplaceFuel_succ]
            rw [if_pos ⟨by decide, by simp [List.isPrefixOf]⟩]
            rw [show (['%'].length - 1) = 0 from rfl, List.drop_zero]
            rw [pyReplaceFuel_succ]
            rw [if_neg (by
              intro hcond
              rcases hcond with ⟨-, h2⟩
              simp [List.isPrefixOf] at h2
              exact hd h2.symm)]
            rw [List.cons_append, List.cons_append, List.nil_append]
            rw [find_other_cons ' ' _ (by decide)]
            rw [find_percent_cons]
            rw [ih k (by omega) rest2 sp2 (by omega) hdd2 hf2]
            rfl
      · have hddr : containsSub ['%', '%'] rest = false := by
          rw [containsSub_cons] at hdd
          exact (bool_or_false _ _ hdd).2
        have hf' : find_format_specifiers rest = some sp := by
          rw [find_other_cons c rest hc] at hf
          exact hf
        rw [pyReplaceFuel_succ]
        rw [if_neg (by
          intro hcond
          rcases hcond with ⟨-, h2⟩
          simp [List.isPrefixOf] at h2
          exact hc h2.symm)]
        rw [find_other_cons c _ hc]
        exact ih m (by omega) rest sp (by simp at hlen; omega) hddr hf'

/-- Every invalid result of the consistency check carries a finding: the
errors list is the parse-error or the mismatch singleton. -/
theorem check_result_shape (s t : List Char) (n : Bool) (v : Bool) (e : List Finding)
    (h : check_format_specifiers s t n = CheckOutcome.result v e) :
    (v = true ∧ e = []) ∨ e = [Finding.parseError] ∨ e = [Finding.mismatch] := by
  simp only [check_format_specifiers] at h
  repeat' split at h
  all_goals (try cases h)
  all_goals (try simp)

/-- Claim C1: classification puts exactly the digit-1-9 tokens into the
numeric set; the other sequence is the order-preserving list of the
remaining tokens when no digit occurs and is empty otherwise; whenever the
numeric set is non-empty the returned other sequence is empty. -/
theorem claim_C1 (sp : List Char) :
    (∀ c, c ∈ (split_format_specifiers sp).1 ↔ (c ∈ sp ∧ isQtDigit c = true)) ∧
    ((split_format_specifiers sp).2
      = if sp.any isQtDigit then [] else sp.filter (fun c => !(isQtDigit c))) ∧
    ((split_format_specifiers sp).1 ≠ ∅ → (split_format_specifiers sp).2 = []) := by
  refine ⟨?_, ?_, ?_⟩
  · intro c
    rw [split_fst]
    simp [List.mem_toFinset, List.mem_filter]
  · rw [split_snd]
    by_cases h : sp.filter (fun c => isQtDigit c) = []
    · rw [if_pos h, if_neg (by rw [(filter_isQtDigit_eq_nil sp).1 h]; simp)]
    · rw [if_neg h, if_pos (by
        revert h
        rw [filter_isQtDigit_eq_nil]
        cases sp.any isQtDigit <;> simp)]
  · intro h1
    rw [split_snd]
    rw [if_neg]
    intro hnil
    rw [split_fst, hnil] at h1
    simp at h1

/-- Witness for claim C1 at the token list containing a digit and a letter. -/
theorem claim_C1_witness : (split_format_specifiers ['1', 's']).2 = [] :=
  (claim_C1 ['1', 's']).2.2 (by decide)

/-- Claim C10: no returned pair has both a non-empty numeric set and a
non-empty other sequence, hence the assertion in the consistency check
never fires: every check run either crashes parsing the source or returns
a result. -/
theorem claim_C10 :
    (∀ sp : List Char,
      (split_format_specifiers sp).1 = ∅ ∨ (split_format_specifiers sp).2 = []) ∧
    (∀ (source translation : List Char) (numerus : Bool),
      check_format_specifiers source translation numerus = CheckOutcome.sourceParseCrash ∨
      ∃ v e, check_format_specifiers source translation numerus = CheckOutcome.result v e) := by
  have hsplit : ∀ sp : List Char,
      (split_format_specifiers sp).1 = ∅ ∨ (split_format_specifiers sp).2 = [] := by
    intro sp
    rw [split_fst, split_snd]
    by_cases h : sp.filter (fun c => isQtDigit c) = []
    · left
      rw [h]
      rfl
    · right
      rw [if_neg h]
  refine ⟨hsplit, ?_⟩
  intro source translation numerus
  cases hfs : find_format_specifiers source with
  | none =>
    left
    simp only [check_format_specifiers, hfs]
  | some ssp =>
    right
    simp only [check_format_specifiers, hfs]
    have hassert : ¬((split_format_specifiers ssp).1 ≠ ∅ ∧ (split_format_specifiers ssp).2 ≠ []) := by
      rcases hsplit ssp with h | h
      · intro hcon; exact hcon.1 h
      · intro hcon; exact hcon.2 h
    rw [if_neg hassert]
    cases hft : find_format_specifiers translation with
    | none => exact ⟨false, [Finding.parseError], rfl⟩
    | some tsp =>
      dsimp only
      by_cases hne : split_format_specifiers ssp ≠ split_format_specifiers tsp
      · rw [if_pos hne]
        split
        · exact ⟨true, [], rfl⟩
        · exact ⟨false, [Finding.mismatch], rfl⟩
      · rw [if_neg hne]
        exact ⟨true, [], rfl⟩

/-- Claim C2 (amended): when a source string mixes both conventions (its
token list holds a digit 1-9 and a non-digit), classification discards the
printf-style tokens, so the assertion on the source profile passes and the
check returns an ordinary result instead of stopping the run. -/
theorem claim_C2 (source sp : List Char)
    (hs : find_format_specifiers source = some sp)
    (hd : sp.any isQtDigit = true)
    (ho : sp.any (fun c => !(isQtDigit c)) = true) :
    (split_format_specifiers sp).2 = [] ∧
    ∀ (translation : List Char) (numerus : Bool),
      ∃ v e, check_format_specifiers source translation numerus = CheckOutcome.result v e := by
  have hmix : sp.filter (fun c => isQtDigit c) ≠ [] := by
    intro hnil
    rw [(filter_isQtDigit_eq_nil sp).1 hnil] at hd
    cases hd
  have hsnd : (split_format_specifiers sp).2 = [] := by
    rw [split_snd, if_neg hmix]
  refine ⟨hsnd, ?_⟩
  intro translation numerus
  simp only [check_format_specifiers, hs]
  rw [if_neg (fun hcon => hcon.2 hsnd)]
  cases hft : find_format_specifiers translation with
  | none => exact ⟨false, [Finding.parseError], rfl⟩
  | some tsp =>
    dsimp only
    by_cases hne : split_format_specifiers sp ≠ split_format_specifiers tsp
    · rw [if_pos hne]
      split
      · exact ⟨true, [], rfl⟩
      · exact ⟨false, [Finding.mismatch], rfl⟩
    · rw [if_neg hne]
      exact ⟨true, [], rfl⟩

/-- Counterexample to claim C2 as stated: the source mixing a positional
and a printf-style specifier does not make the assertion fail; the check
returns an ordinary mismatch result. -/
theorem claim_C2_cex :
    find_format_specifiers ['%', '1', ' ', '%', 's'] = some ['1', 's'] ∧
    ['1', 's'].any isQtDigit = true ∧
    ['1', 's'].any (fun c => !(isQtDigit c)) = true ∧
    check_format_specifiers ['%', '1', ' ', '%', 's'] [] false ≠ CheckOutcome.assertFail := by
  decide

/-- Witness for claim C2 at the mixed source with specifiers 1 and s. -/
theorem claim_C2_witness :
    (split_format_specifiers ['1', 's']).2 = [] ∧
    ∃ v e, check_format_specifiers ['%', '1', ' ', '%', 's'] [] false
            = CheckOutcome.result v e := by
  have h := claim_C2 ['%', '1', ' ', '%', 's'] ['1', 's'] (by decide) (by decide) (by decide)
  exact ⟨h.1, h.2 [] false⟩

/-- Claim C6: a numerus message whose source profile is exactly the plural
profile and whose translation holds no percent character is accepted with
no finding recorded. -/
theorem claim_C6 (source t sp : List Char)
    (hs : find_format_specifiers source = some sp)
    (hsp : split_format_specifiers sp = (∅, ['n']))
    (ht : t.contains '%' = false) :
    check_format_specifiers source t true = CheckOutcome.result true [] := by
  have htf : find_format_specifiers t = some [] := find_no_percent t ht
  simp only [check_format_specifiers, hs, htf]
  rw [if_neg (by
    intro hcon
    apply hcon.1
    rw [hsp])]
  rw [if_pos (by
    rw [hsp]
    decide)]
  rw [if_pos ⟨by trivial, by rw [hsp], by decide, ht⟩]

/-- Witness for claim C6 at source with a plural-count specifier and a
percent-free translation. -/
theorem claim_C6_witness :
    check_format_specifiers ['%', 'n'] ['o', 'k'] true = CheckOutcome.result true [] :=
  claim_C6 ['%', 'n'] ['o', 'k'] ['n'] (by decide) (by decide) (by decide)

/-- Claim C7: the repair table rewrites the sample string to one whose
profile equals the profile of a source using the three specifiers 1, 2 and
s; in particular the two singleton rewrites hold. -/
theorem claim_C7 :
    fix_string ['%', ' ', '1'] = ['%', '1'] ∧
    fix_string ['2', '%'] = ['%', '2'] ∧
    (find_format_specifiers (fix_string
        ['%', ' ', '1', ' ', 'a', 'n', 'd', ' ', '2', '%', ' ', 'a', 'n', 'd', ' ', '%', ' ', 's'])).map
        split_format_specifiers
      = (find_format_specifiers ['%', '1', ' ', '%', '2', ' ', '%', 's']).map
        split_format_specifiers := by
  decide

/-- Claim C5: a translation matching the address pattern is never valid and
always leaves a finding, even when its profile equals the source profile
(then the finding is the address finding itself). -/
theorem claim_C5 (source t : List Char) (numerus : Bool) (v : Bool) (errs : List Finding)
    (haddr : contains_bitcoin_addr t = true)
    (hmv : message_valid source t numerus = some (v, errs)) :
    v = false ∧ errs ≠ [] := by
  unfold message_valid at hmv
  cases hc : check_format_specifiers source t numerus with
  | sourceParseCrash => rw [hc] at hmv; cases hmv
  | assertFail => rw [hc] at hmv; cases hmv
  | result v0 e0 =>
    rw [hc] at hmv
    dsimp only at hmv
    by_cases hv : v0 = true
    · rw [if_pos hv, if_pos haddr] at hmv
      injection hmv with hmv2
      injection hmv2 with hv2 he2
      subst hv2
      subst he2
      exact ⟨rfl, by simp⟩
    · rw [if_neg hv] at hmv
      injection hmv with hmv2
      injection hmv2 with hv2 he2
      subst hv2
      subst he2
      refine ⟨rfl, ?_⟩
      rcases check_result_shape source t numerus v0 e0 hc with ⟨hv0, -⟩ | he | he
      · exact absurd hv0 hv
      · rw [he]; simp
      · rw [he]; simp

/-- Witness for claim C5 at a translation embedding a bitcoin address. -/
theorem claim_C5_witness :
    (false = false) ∧ ([Finding.addr] : List Finding) ≠ [] :=
  claim_C5 ['x']
    ['s', 'e', 'n', 'd', ' ', 't', 'o', ' ', '1', 'A', '1', 'z', 'P', '1', 'e', 'P', '5',
     'Q', 'G', 'e', 'f', 'i', '2', 'D', 'M', 'P', 'T', 'f', 'T', 'L', '5', 'S', 'L', 'm',
     'v', '7', 'D', 'i', 'v', 'f', 'N', 'a', ' ', 'n', 'o', 'w']
    false false [Finding.addr] (by decide) (by decide)

/-- Claim C3 (amended): in the first repair pass, when the profile of the
substituted string equals the source profile the fix is accepted with the
conditional space insertion applied to the stored text; the profile
comparison happens before the insertion, and the stored string still has
the source profile whenever the substituted string contains no two adjacent
percent characters. -/
theorem claim_C3 (source : List Char) (source_f : Finset Char × List Char)
    (ty : Option (List Char)) (t sp : List Char) (c : Char) (r : List Char)
    (hne : fix_string t = c :: r)
    (hsp : find_format_specifiers (fix_string t) = some sp)
    (hmatch : split_format_specifiers sp = source_f) :
    attempt_fix source source_f ty t
      = some ({ text := some (insert_spaces (fix_string t)), ty := ty }, false)
    ∧ (containsSub ['%', '%'] (fix_string t) = false →
        ∃ sp2, find_format_specifiers (insert_spaces (fix_string t)) = some sp2
             ∧ split_format_specifiers sp2 = source_f) := by
  constructor
  · unfold attempt_fix
    rw [hne] at hsp ⊢
    simp only [hsp]
    rw [if_pos hmatch]
  · intro hdd
    refine ⟨sp, ?_, hmatch⟩
    unfold insert_spaces
    split
    · exact find_spaces_fuel (fix_string t).length (fix_string t) sp le_rfl hdd hsp
    · exact hsp

/-- Counterexample to claim C3 as stated: an accepted fix whose stored
string, after the space insertion, has a profile different from the source
profile (the fixed string contains a double percent). -/
theorem claim_C3_cex :
    find_format_specifiers ['x', '%', '%', '%', 's'] = some ['%', 's'] ∧
    fix_string ['a', '%', '%', '$', 's'] = ['a', '%', '%', '%', 's'] ∧
    attempt_fix ['x', '%', '%', '%', 's'] (split_format_specifiers ['%', 's']) none
        ['a', '%', '%', '$', 's']
      = some ({ text := some ['a', ' ', '%', ' ', '%', ' ', '%', 's'], ty := none }, false) ∧
    find_format_specifiers ['a', ' ', '%', ' ', '%', ' ', '%', 's'] = some [' ', ' ', 's'] ∧
    split_format_specifiers [' ', ' ', 's'] ≠ split_format_specifiers ['%', 's'] := by
  decide

/-- Witness for claim C3 at a fixable translation without double percent. -/
theorem claim_C3_witness :
    (attempt_fix ['x', '%', 's'] (split_format_specifiers ['s']) none ['a', '$', 's']
      = some ({ text := some (insert_spaces (fix_string ['a', '$', 's'])), ty := none }, false))
    ∧ (containsSub ['%', '%'] (fix_string ['a', '$', 's']) = false →
        ∃ sp2, find_format_specifiers (insert_spaces (fix_string ['a', '$', 's'])) = some sp2
             ∧ split_format_specifiers sp2 = split_format_specifiers ['s']) :=
  claim_C3 ['x', '%', 's'] (split_format_specifiers ['s']) none ['a', '$', 's'] ['s'] 'a'
    ['%', 's'] (by decide) (by decide) (by decide)

/-- Claim C4 (amended): when the first repair pass did not produce a
matching profile and the marker-swap pass does not apply (it is not the
case that the fixed translation contains a percent and the source contains
an ampersand), a fixed translation containing a positional placeholder for
slot 1 with a source containing the plural-count placeholder is rewritten
by replacing every such positional placeholder with the plural-count
placeholder, and the resulting profile is checked against the source
profile. -/
theorem claim_C4 (source : List Char) (source_f : Finset Char × List Char)
    (ty : Option (List Char)) (t sp1 : List Char)
    (h1 : find_format_specifiers (fix_string t) = some sp1)
    (h1m : split_format_specifiers sp1 ≠ source_f)
    (hno2 : ¬((fix_string t).contains '%' = true ∧ source.contains '&' = true))
    (hc3 : containsSub ['%', '1'] (fix_string t) = true)
    (hs3 : containsSub ['%', 'n'] source = true) :
    attempt_fix source source_f ty t
      = match find_format_specifiers (pyReplace (fix_string t) ['%', '1'] ['%', 'n']) with
        | none => none
        | some sp3 =>
          if split_format_specifiers sp3 = source_f
          then some ({ text := some (pyReplace (fix_string t) ['%', '1'] ['%', 'n']),
                       ty := ty }, false)
          else some (clear_translation
                { text := some (pyReplace (fix_string t) ['%', '1'] ['%', 'n']),
                  ty := ty }, true) := by
  unfold attempt_fix
  generalize hF : fix_string t = u at h1 hno2 hc3 ⊢
  simp only [h1]
  rw [if_neg h1m, if_neg hno2, if_pos ⟨hc3, hs3⟩]

/-- Counterexample to claim C4 as stated: repair steps 1 and 2 fail, the
translation contains the positional placeholder and the source the
plural-count placeholder, the swap would even produce the source profile,
yet the code clears the node instead of swapping, because the marker-swap
branch was selected on its precondition and its failure ends the repair. -/
theorem claim_C4_cex :
    find_format_specifiers (fix_string ['%', '1']) = some ['1'] ∧
    split_format_specifiers ['1'] ≠ split_format_specifiers ['n'] ∧
    containsSub ['%', '1'] (fix_string ['%', '1']) = true ∧
    containsSub ['%', 'n'] ['&', 'x', ' ', '%', 'n'] = true ∧
    find_format_specifiers (pyReplace (fix_string ['%', '1']) ['%', '1'] ['%', 'n'])
      = some ['n'] ∧
    attempt_fix ['&', 'x', ' ', '%', 'n'] (split_format_specifiers ['n']) none ['%', '1']
      = some ({ text := none, ty := some unfinishedMarker }, true) := by
  decide

/-- Witness for claim C4 at a source containing the plural placeholder and
no ampersand. -/
theorem claim_C4_witness :
    attempt_fix ['x', ' ', '%', 'n'] (split_format_specifiers ['n']) none ['%', '1']
      = some ({ text := some ['%', 'n'], ty := none }, false) := by
  rw [claim_C4 ['x', ' ', '%', 'n'] (split_format_specifiers ['n']) none ['%', '1'] ['1']
    (by decide) (by decide) (by decide) (by decide) (by decide)]
  decide

/-- Claim C8: when no repair pass yields the source profile, the
translation node ends cleared with its type attribute set to the
unfinished marker, and the error flag for the run is raised while the
repair itself returns normally. -/
theorem claim_C8 (source : List Char) (source_f : Finset Char × List Char)
    (ty : Option (List Char)) (t sp1 : List Char)
    (h1 : find_format_specifiers (fix_string t) = some sp1)
    (h1m : split_format_specifiers sp1 ≠ source_f)
    (h2 : (fix_string t).contains '%' = true ∧ source.contains '&' = true →
      ∃ sp2, find_format_specifiers (pyReplace (fix_string t) ['%'] ['&']) = some sp2
           ∧ split_format_specifiers sp2 ≠ source_f)
    (h3 : containsSub ['%', '1'] (fix_string t) = true ∧ containsSub ['%', 'n'] source = true →
      ∃ sp3, find_format_specifiers (pyReplace (fix_string t) ['%', '1'] ['%', 'n']) = some sp3
           ∧ split_format_specifiers sp3 ≠ source_f) :
    attempt_fix source source_f ty t = some ({ text := none, ty := some unfinishedMarker }, true) := by
  unfold attempt_fix
  generalize hF : fix_string t = u at h1 h2 h3 ⊢
  simp only [h1]
  rw [if_neg h1m]
  by_cases hc2 : u.contains '%' = true ∧ source.contains '&' = true
  · rw [if_pos hc2]
    obtain ⟨sp2, hf2, hm2⟩ := h2 hc2
    simp only [hf2]
    rw [if_neg hm2]
    rfl
  · rw [if_neg hc2]
    by_cases hc3 : containsSub ['%', '1'] u = true ∧ containsSub ['%', 'n'] source = true
    · rw [if_pos hc3]
      obtain ⟨sp3, hf3, hm3⟩ := h3 hc3
      simp only [hf3]
      rw [if_neg hm3]
      rfl
    · rw [if_neg hc3]
      rfl

/-- Witness for claim C8 at a source without specifiers and a translation
with a positional specifier, where no pass applies. -/
theorem claim_C8_witness :
    attempt_fix ['x'] (split_format_specifiers []) none ['%', '1']
      = some ({ text := none, ty := some unfinishedMarker }, true) :=
  claim_C8 ['x'] (split_format_specifiers []) none ['%', '1'] ['1'] (by decide) (by decide)
    (fun h => absurd h.2 (by decide)) (fun h => absurd h.2 (by decide))

/-- Claim C9: after pruning, no message marked unfinished remains in any
context; a document whose surviving message count is below the minimum is
discarded, and one at or above it is kept with exactly the pruned
contexts. -/
theorem claim_C9 (doc : List (List TNode)) :
    (∀ ctx ∈ doc.map prune_context, ∀ n ∈ ctx, n.ty ≠ some unfinishedMarker) ∧
    (((doc.map prune_context).map List.length).sum < MIN_NUM_MESSAGES →
      prune_document doc = none) ∧
    (MIN_NUM_MESSAGES ≤ ((doc.map prune_context).map List.length).sum →
      prune_document doc = some (doc.map prune_context)) := by
  refine ⟨?_, ?_, ?_⟩
  · intro ctx hctx nd hnd
    obtain ⟨ctx0, -, rfl⟩ := List.mem_map.1 hctx
    have hmem := List.of_mem_filter hnd
    intro he
    rw [he] at hmem
    simp at hmem
  · intro h
    unfold prune_document
    rw [if_pos h]
  · intro h
    unfold prune_document
    rw [if_neg (by omega)]

/-- Witness for claim C9 at a single-context document of ten finished
messages. -/
theorem claim_C9_witness :
    prune_document [List.replicate 10 ({ text := none, ty := none } : TNode)]
      = some ([List.replicate 10 ({ text := none, ty := none } : TNode)].map prune_context) :=
  (claim_C9 [List.replicate 10 ({ text := none, ty := none } : TNode)]).2.2 (by decide)
